import Mathlib

/-!
Verification of the service-layer logic of DungeonBuilderServerSide.

The repository is a Python backend whose services perform read-then-write
sequences against a document store.  We embed each service shallowly:

* a container of documents becomes a `List` of typed records;
* `query_items` with an equality filter becomes `List.find?` / `List.filter`;
* `create_item` appends a record carrying a fresh id (the store keeps a
  `nextId` counter standing in for uuid generation; every stored id is
  below `nextId`);
* `update_item container id pk updates` becomes an in-place `List.map`
  that rewrites the record(s) with the given id (partition keys always
  match in the flows modelled here, so they are not tracked);
* ISO-8601 timestamps, which the source compares as strings (an
  order-preserving encoding), become `Nat` instants;
* Python `int` fields become `Int`, Python `float` division in the rating
  mean becomes exact `Rat` arithmetic, and Python `round(x, 2)` becomes
  round-half-to-even on `100 * x`;
* fields of the source models that the verified operations neither read
  nor write are omitted from the record types.
-/

namespace DungeonBuilder

/-- Python `round` ties to the nearest even integer (banker's rounding). -/
def roundHalfEven (q : ℚ) : ℤ :=
  let f : ℤ := ⌊q⌋
  let frac : ℚ := q - f
  if frac < 1/2 then f
  else if 1/2 < frac then f + 1
  else if f % 2 = 0 then f else f + 1

/-- Python `round(x, 2)`: round to two decimal places. -/
def round2 (q : ℚ) : ℚ := (roundHalfEven (q * 100) : ℚ) / 100

/-- `db_service.update_item`: rewrite the document(s) carrying `i`,
leaving every other document unchanged. -/
def updateById {α : Type} (getId : α → ℕ) (l : List α) (i : ℕ) (f : α → α) :
    List α :=
  l.map (fun x => if getId x == i then f x else x)

theorem updateById_cons {α : Type} (getId : α → ℕ) (a : α) (t : List α)
    (i : ℕ) (f : α → α) :
    updateById getId (a :: t) i f =
      (if getId a == i then f a else a) :: updateById getId t i f := rfl

theorem find?_updateById {α : Type} (getId : α → ℕ) (l : List α) (i : ℕ)
    (f : α → α) (hid : ∀ x, getId (f x) = getId x) :
    (updateById getId l i f).find? (fun x => getId x == i) =
      (l.find? (fun x => getId x == i)).map f := by
  induction l with
  | nil => rfl
  | cons a t ih =>
    rw [updateById_cons]
    by_cases h : getId a = i
    · simp [List.find?_cons, h, hid]
    · simp [List.find?_cons, h, ih]

theorem find?_updateById_isSome {α : Type} (getId : α → ℕ) (l : List α)
    (i : ℕ) (f : α → α) (hid : ∀ x, getId (f x) = getId x) :
    ((updateById getId l i f).find? (fun x => getId x == i)).isSome =
      ((l.find? (fun x => getId x == i)).isSome) := by
  rw [find?_updateById getId l i f hid]
  cases l.find? (fun x => getId x == i) <;> rfl

/-! ### Content store — `services/dungeon_service.py` -/

/-- The fields of the `Dungeon` model read or written by rating flows. -/
structure Dungeon where
  id : ℕ
  creator_id : ℕ
  average_rating : ℚ
  total_ratings : ℕ
  deriving DecidableEq, Repr

/-- A document of the ratings container (`DungeonRating`). -/
structure RatingRow where
  id : ℕ
  dungeon_id : ℕ
  user_id : ℕ
  rating : ℤ
  comment : Option String
  deriving DecidableEq, Repr

/-- The dungeons and ratings containers, plus the id supply. -/
structure DungeonStore where
  dungeons : List Dungeon
  ratings : List RatingRow
  nextId : ℕ
  deriving DecidableEq, Repr

/-- `DungeonService.get_dungeon_by_id`: `SELECT * FROM c WHERE c.id = @dungeonId`. -/
def get_dungeon_by_id (s : DungeonStore) (dungeon_id : ℕ) : Option Dungeon :=
  s.dungeons.find? (fun d => d.id == dungeon_id)

/-- The query of `_update_dungeon_rating`:
`SELECT * FROM c WHERE c.dungeon_id = @dungeonId` on the ratings container. -/
def dungeonRatings (s : DungeonStore) (dungeon_id : ℕ) : List RatingRow :=
  s.ratings.filter (fun r => r.dungeon_id == dungeon_id)

/-- The query of `rate_dungeon`:
`SELECT * FROM c WHERE c.dungeon_id = @dungeonId AND c.user_id = @userId`. -/
def pairRatings (s : DungeonStore) (dungeon_id user_id : ℕ) : List RatingRow :=
  s.ratings.filter (fun r => r.dungeon_id == dungeon_id && r.user_id == user_id)

/-- `DungeonService._update_dungeon_rating`: re-read every rating of the
dungeon; if any exist, write `round(mean, 2)` and the count back onto the
dungeon document (skipped when the dungeon itself is absent). -/
def update_dungeon_rating (s : DungeonStore) (dungeon_id : ℕ) : DungeonStore :=
  if (dungeonRatings s dungeon_id).isEmpty then s
  else
    match get_dungeon_by_id s dungeon_id with
    | none => s
    | some _ =>
        { s with dungeons := (updateById Dungeon.id s.dungeons dungeon_id (fun d => { d with average_rating := round2 (((((dungeonRatings s dungeon_id).map (fun r => r.rating)).sum : ℤ) : ℚ) / ((dungeonRatings s dungeon_id).length : ℚ)), total_ratings := (dungeonRatings s dungeon_id).length })) }

/-- `DungeonService.rate_dungeon`: reject a rating outside `[1, 5]`;
otherwise upsert the (dungeon, user) rating row and recompute the
dungeon's aggregates.  The returned `DungeonRating` payload is not
modelled; the result is the post-call store. -/
def rate_dungeon (s : DungeonStore) (dungeon_id user_id : ℕ) (rating : ℤ)
    (comment : Option String) : Except String DungeonStore :=
  if rating < 1 ∨ 5 < rating then .error "Rating must be between 1 and 5"
  else
    let s1 :=
      match pairRatings s dungeon_id user_id with
      | [] =>
          { s with
            ratings := s.ratings ++
              [⟨s.nextId, dungeon_id, user_id, rating, comment⟩],
            nextId := s.nextId + 1 }
      | e :: _ =>
          { s with ratings := (updateById RatingRow.id s.ratings e.id (fun r => { r with rating := rating, comment := comment })) }
    .ok (update_dungeon_rating s1 dungeon_id)

/-! ### Session store — `services/lobby_service.py`

Lobby documents and invite documents share the `lobbies` container in the
source; their ids are distinct uuids and every query filters on fields
only one kind of document carries, so the container is modelled as two
lists. -/

inductive LobbyStatus where
  | waiting
  | in_game
  | completed
  | cancelled
  deriving DecidableEq, Repr

/-- The `Lobby` model (timestamps other than `started_at` omitted). -/
structure Lobby where
  id : ℕ
  name : String
  creator_id : ℕ
  dungeon_id : ℕ
  max_players : ℤ
  current_players : ℤ
  is_public : Bool
  password : Option String
  status : LobbyStatus
  started_at : Option ℕ
  deriving DecidableEq, Repr

/-- The `LobbyInvite` model. -/
structure LobbyInvite where
  id : ℕ
  lobby_id : ℕ
  inviter_id : ℕ
  invitee_id : ℕ
  created_at : ℕ
  expires_at : ℕ
  is_accepted : Option Bool
  deriving DecidableEq, Repr

/-- The `lobbies` container. -/
structure LobbyStore where
  lobbies : List Lobby
  invites : List LobbyInvite
  deriving DecidableEq, Repr

/-- `LobbyService.get_lobby_by_id`: `SELECT * FROM c WHERE c.id = @lobbyId`. -/
def get_lobby_by_id (s : LobbyStore) (lobby_id : ℕ) : Option Lobby :=
  s.lobbies.find? (fun l => l.id == lobby_id)

/-- Python truthiness of an optional string: `None` and `""` are falsy. -/
def truthyStr : Option String → Bool
  | none => false
  | some p => p != ""

/-- `LobbyService.join_lobby`.  The password guard is the source's
`if lobby.password and lobby.password != password`: it fires only when the
stored password is truthy (present and non-empty) and differs from the
supplied optional password. -/
def join_lobby (s : LobbyStore) (lobby_id user_id : ℕ)
    (password : Option String) : Bool × LobbyStore :=
  match get_lobby_by_id s lobby_id with
  | none => (false, s)
  | some lobby =>
    if lobby.status != LobbyStatus.waiting then (false, s)
    else if lobby.max_players ≤ lobby.current_players then (false, s)
    else if truthyStr lobby.password && lobby.password != password then (false, s)
    else
      (true, { s with lobbies := (updateById Lobby.id s.lobbies lobby_id (fun l => { l with current_players := lobby.current_players + 1 })) })

/-- `LobbyService.leave_lobby`: no check that `user_id` ever joined. -/
def leave_lobby (s : LobbyStore) (lobby_id user_id : ℕ) : Bool × LobbyStore :=
  match get_lobby_by_id s lobby_id with
  | none => (false, s)
  | some lobby =>
    if lobby.status != LobbyStatus.waiting then (false, s)
    else
      (true, { s with lobbies := (updateById Lobby.id s.lobbies lobby_id (fun l => { l with current_players := max 0 (lobby.current_players - 1) })) })

/-- `LobbyService.start_lobby` (`now` stands for `datetime.utcnow()`). -/
def start_lobby (s : LobbyStore) (lobby_id creator_id : ℕ) (now : ℕ) :
    Bool × LobbyStore :=
  match get_lobby_by_id s lobby_id with
  | none => (false, s)
  | some lobby =>
    if lobby.creator_id != creator_id then (false, s)
    else if lobby.status != LobbyStatus.waiting then (false, s)
    else if lobby.current_players < 1 then (false, s)
    else
      (true, { s with lobbies := (updateById Lobby.id s.lobbies lobby_id (fun l => { l with status := LobbyStatus.in_game, started_at := some now })) })

/-- `LobbyService.get_lobby_invites`: pending (`is_accepted IS NULL`),
unexpired invites addressed to the user. -/
def get_lobby_invites (s : LobbyStore) (user_id : ℕ) (now : ℕ) :
    List LobbyInvite :=
  s.invites.filter
    (fun i => i.invitee_id == user_id && i.is_accepted == none && now < i.expires_at)

/-- `LobbyService.accept_lobby_invite`: look up the invite by id and
invitee, reject it when expired (the source compares ISO strings, here
`Nat` instants), mark `is_accepted = true`, and only then attempt the
join — with no password supplied. -/
def accept_lobby_invite (s : LobbyStore) (invite_id user_id : ℕ) (now : ℕ) :
    Bool × LobbyStore :=
  match s.invites.find? (fun i => i.id == invite_id && i.invitee_id == user_id) with
  | none => (false, s)
  | some invite =>
    if invite.expires_at < now then (false, s)
    else
      let s1 := { s with invites := (updateById LobbyInvite.id s.invites invite_id (fun i => { i with is_accepted := some true })) }
      join_lobby s1 invite.lobby_id user_id none

/-! ### Social graph — `services/friendship_service.py` -/

inductive FriendStatus where
  | pending
  | accepted
  | rejected
  | blocked
  deriving DecidableEq, Repr

/-- The `Friendship` model. -/
structure Friendship where
  id : ℕ
  requester_id : ℕ
  addressee_id : ℕ
  status : FriendStatus
  deriving DecidableEq, Repr

/-- The `friendships` container plus the id supply. -/
structure FriendStore where
  friendships : List Friendship
  nextId : ℕ
  deriving DecidableEq, Repr

/-- `FriendshipService._get_friendship`: probe the (requester, addressee)
direction first, then the reverse, any status. -/
def getFriendship (s : FriendStore) (user1_id user2_id : ℕ) :
    Option Friendship :=
  match s.friendships.find? (fun f => f.requester_id == user1_id && f.addressee_id == user2_id) with
  | some f => some f
  | none =>
      s.friendships.find? (fun f => f.requester_id == user2_id && f.addressee_id == user1_id)

/-- `FriendshipService.send_friend_request`: raises on a self-request or
when any relationship row already exists in either direction; otherwise
inserts a fresh `pending` row. -/
def send_friend_request (s : FriendStore) (requester_id addressee_id : ℕ) :
    Except String FriendStore :=
  if requester_id == addressee_id then
    .error "Cannot send friend request to yourself"
  else
    match getFriendship s requester_id addressee_id with
    | some _ => .error "Friendship request already exists"
    | none =>
        .ok { friendships := s.friendships ++ [⟨s.nextId, requester_id, addressee_id, FriendStatus.pending⟩], nextId := s.nextId + 1 }

/-- `FriendshipService.accept_friend_request`: only a `pending` row in the
exact (requester, addressee) direction can be accepted. -/
def accept_friend_request (s : FriendStore) (addressee_id requester_id : ℕ) :
    Bool × FriendStore :=
  match getFriendship s requester_id addressee_id with
  | none => (false, s)
  | some f =>
    if f.status != FriendStatus.pending then (false, s)
    else
      (true, { s with friendships := (updateById Friendship.id s.friendships f.id (fun g => { g with status := FriendStatus.accepted })) })

/-- `FriendshipService.are_friends`. -/
def are_friends (s : FriendStore) (user_id friend_id : ℕ) : Bool :=
  match getFriendship s user_id friend_id with
  | some f => f.status == FriendStatus.accepted
  | none => false

/-! ### Ranking store — `services/leaderboard_service.py` -/

/-- A `PlayerScore` document; `username` is kept because the rank query
filters on `c.username IS NOT NULL`, which every player row satisfies. -/
structure PlayerScore where
  id : ℕ
  user_id : ℕ
  username : String
  total_score : ℤ
  deriving DecidableEq, Repr

/-- A `DungeonScore` document. -/
structure DungeonScore where
  id : ℕ
  dungeon_id : ℕ
  dungeon_name : String
  average_rating : ℚ
  deriving DecidableEq, Repr

/-- The `leaderboard` container: player rows and dungeon rows share it and
are told apart by which fields are non-null, so it is modelled as two
lists. -/
structure LeaderboardStore where
  players : List PlayerScore
  dungeonScores : List DungeonScore
  deriving DecidableEq, Repr

/-- `LeaderboardService.get_player_rank`:
`SELECT VALUE COUNT(1) + 1 FROM c WHERE ... AND c.total_score > (subquery)`.
When the subquery finds no row for the user the comparison is undefined,
no row passes the filter, and the query still yields `COUNT(1) + 1 = 1`. -/
def get_player_rank (s : LeaderboardStore) (user_id : ℕ) : Option ℤ :=
  match s.players.find? (fun r => r.user_id == user_id) with
  | none => some 1
  | some me =>
      some (((s.players.filter (fun r => me.total_score < r.total_score)).length : ℤ) + 1)

/-- `LeaderboardService.get_dungeon_rank`: same shape over dungeon rows,
with `average_rating` as the metric. -/
def get_dungeon_rank (s : LeaderboardStore) (dungeon_id : ℕ) : Option ℤ :=
  match s.dungeonScores.find? (fun r => r.dungeon_id == dungeon_id) with
  | none => some 1
  | some me =>
      some (((s.dungeonScores.filter (fun r => me.average_rating < r.average_rating)).length : ℤ) + 1)

/-! ### General lemmas about the store helpers -/

theorem find?_updateById_pred {α : Type} (getId : α → ℕ) (l : List α) (i : ℕ)
    (f : α → α) (p : α → Bool) (hp : ∀ x, p (f x) = p x) :
    (updateById getId l i f).find? p =
      (l.find? p).map (fun x => if getId x == i then f x else x) := by
  induction l with
  | nil => rfl
  | cons a t ih =>
    rw [updateById_cons]
    by_cases hpa : p a = true
    · by_cases h : getId a = i
      · simp [List.find?_cons, h, hp, hpa]
      · simp [List.find?_cons, h, hpa]
    · by_cases h : getId a = i
      · simp [List.find?_cons, h, hp, hpa, ih]
      · simp [List.find?_cons, h, hpa, ih]

theorem filter_updateById_pred {α : Type} (getId : α → ℕ) (l : List α) (i : ℕ)
    (f : α → α) (p : α → Bool) (hp : ∀ x, p (f x) = p x) :
    (updateById getId l i f).filter p = (l.filter p).map (fun x => if getId x == i then f x else x) := by
  induction l with
  | nil => rfl
  | cons a t ih =>
    rw [updateById_cons]
    by_cases hpa : p a = true
    · by_cases h : getId a = i
      · simp [List.filter_cons, h, hp, hpa, ih]
      · simp [List.filter_cons, h, hpa, ih]
    · by_cases h : getId a = i
      · simp [List.filter_cons, h, hp, hpa, ih]
      · simp [List.filter_cons, h, hpa, ih]

/-! ### Example stores used to instantiate the theorems -/

/-- A store with one dungeon (id 1, creator 9) and no ratings. -/
def exDungeonStore : DungeonStore := ⟨[⟨1, 9, 0, 0⟩], [], 0⟩

/-- A leaderboard with three players scoring 300, 200 and 100, and three
dungeons averaging 5, 4 and 3. -/
def exLeaderboard : LeaderboardStore :=
  ⟨[⟨1, 1, "alice", 300⟩, ⟨2, 2, "bob", 200⟩, ⟨3, 3, "carol", 100⟩],
   [⟨4, 11, "maze", 5⟩, ⟨5, 12, "crypt", 4⟩, ⟨6, 13, "pit", 3⟩]⟩

/-- The 200-point player row of `exLeaderboard`. -/
def exRow2 : PlayerScore := ⟨2, 2, "bob", 200⟩

/-- The 4-star dungeon row of `exLeaderboard`. -/
def exDungeonRow : DungeonScore := ⟨5, 12, "crypt", 4⟩

/-! ### Claim theorems -/

/-- Claim C8: `rank(id)` of an existing leaderboard row — player rank on
`total_score` and dungeon rank on `average_rating` alike — is the number
of rows with a strictly greater metric plus one; player scores
300/200/100 rank 1/2/3; rows with equal metrics receive the same rank. -/
theorem leaderboard_rank_spec :
    (∀ (s : LeaderboardStore) (uid : ℕ) (me : PlayerScore),
        s.players.find? (fun r => r.user_id == uid) = some me →
        get_player_rank s uid =
          some (((s.players.filter (fun r => me.total_score < r.total_score)).length : ℤ) + 1)) ∧
    (∀ (s : LeaderboardStore) (did : ℕ) (me : DungeonScore),
        s.dungeonScores.find? (fun r => r.dungeon_id == did) = some me →
        get_dungeon_rank s did =
          some (((s.dungeonScores.filter (fun r => me.average_rating < r.average_rating)).length : ℤ) + 1)) ∧
    (∀ (s : LeaderboardStore) (u1 u2 : ℕ) (r1 r2 : PlayerScore),
        s.players.find? (fun r => r.user_id == u1) = some r1 →
        s.players.find? (fun r => r.user_id == u2) = some r2 →
        r1.total_score = r2.total_score →
        get_player_rank s u1 = get_player_rank s u2) ∧
    (∀ (s : LeaderboardStore) (d1 d2 : ℕ) (r1 r2 : DungeonScore),
        s.dungeonScores.find? (fun r => r.dungeon_id == d1) = some r1 →
        s.dungeonScores.find? (fun r => r.dungeon_id == d2) = some r2 →
        r1.average_rating = r2.average_rating →
        get_dungeon_rank s d1 = get_dungeon_rank s d2) ∧
    get_player_rank exLeaderboard 1 = some 1 ∧
    get_player_rank exLeaderboard 2 = some 2 ∧
    get_player_rank exLeaderboard 3 = some 3 := by
  refine ⟨?_, ?_, ?_, ?_, by decide, by decide, by decide⟩
  · intro s uid me hfind
    simp [get_player_rank, hfind]
  · intro s did me hfind
    simp [get_dungeon_rank, hfind]
  · intro s u1 u2 r1 r2 h1 h2 heq
    simp [get_player_rank, h1, h2, heq]
  · intro s d1 d2 r1 r2 h1 h2 heq
    simp [get_dungeon_rank, h1, h2, heq]

/-- Witness for C8 at the 200-point player row and the 4-star dungeon row
of the example leaderboard. -/
theorem leaderboard_rank_spec_witness :
    exLeaderboard.players.find? (fun r => r.user_id == 2) = some exRow2 ∧
    get_player_rank exLeaderboard 2 =
      some (((exLeaderboard.players.filter (fun r => exRow2.total_score < r.total_score)).length : ℤ) + 1) ∧
    exLeaderboard.dungeonScores.find? (fun r => r.dungeon_id == 12) = some exDungeonRow ∧
    get_dungeon_rank exLeaderboard 12 =
      some (((exLeaderboard.dungeonScores.filter (fun r => exDungeonRow.average_rating < r.average_rating)).length : ℤ) + 1) :=
  ⟨by decide, leaderboard_rank_spec.1 exLeaderboard 2 exRow2 (by decide),
   by decide, leaderboard_rank_spec.2.1 exLeaderboard 12 exDungeonRow (by decide)⟩

/-- Claim C9: `rate_dungeon` fails — raising before any write, so the
error branch carries no successor store — exactly when the rating lies
outside `[1, 5]`; ratings 0 and 6 fail while 1 and 5 succeed. -/
theorem rate_dungeon_range_spec :
    (∀ (s : DungeonStore) (d u : ℕ) (r : ℤ) (c : Option String),
        (rate_dungeon s d u r c).toOption = none ↔ r < 1 ∨ 5 < r) ∧
    (∀ (s : DungeonStore) (d u : ℕ) (r : ℤ) (c : Option String),
        r < 1 ∨ 5 < r →
        rate_dungeon s d u r c = .error "Rating must be between 1 and 5") ∧
    (rate_dungeon exDungeonStore 1 2 0 none).toOption = none ∧
    (rate_dungeon exDungeonStore 1 2 6 none).toOption = none ∧
    (rate_dungeon exDungeonStore 1 2 1 none).toOption ≠ none ∧
    (rate_dungeon exDungeonStore 1 2 5 none).toOption ≠ none := by
  refine ⟨?_, ?_, by decide, by decide, by decide, by decide⟩
  · intro s d u r c
    by_cases h : r < 1 ∨ 5 < r
    · simp [rate_dungeon, h, Except.toOption]
    · simp [rate_dungeon, h, Except.toOption]
  · intro s d u r c h
    simp [rate_dungeon, h]

theorem find?_append_of_none {α : Type} (p : α → Bool) (l1 l2 : List α)
    (h : l1.find? p = none) : (l1 ++ l2).find? p = l2.find? p := by
  induction l1 with
  | nil => rfl
  | cons a t ih =>
    rw [List.find?_cons] at h
    by_cases hpa : p a = true
    · simp [hpa] at h
    · have hpa' : p a = false := by simpa using hpa
      simp only [hpa'] at h
      simp [List.find?_cons, hpa', ih h]

theorem getFriendship_isSome_iff (s : FriendStore) (a b : ℕ) :
    (getFriendship s a b).isSome = true ↔
      ∃ f ∈ s.friendships,
        (f.requester_id = a ∧ f.addressee_id = b) ∨
        (f.requester_id = b ∧ f.addressee_id = a) := by
  unfold getFriendship
  cases h1 : s.friendships.find? (fun f => f.requester_id == a && f.addressee_id == b) with
  | some f =>
    simp only [Option.isSome_some, true_iff]
    have hp := List.find?_some h1
    have hmem := List.mem_of_find?_eq_some h1
    refine ⟨f, hmem, Or.inl ?_⟩
    simpa using hp
  | none =>
    cases h2 : s.friendships.find? (fun f => f.requester_id == b && f.addressee_id == a) with
    | some f =>
      simp only [Option.isSome_some, true_iff]
      have hp := List.find?_some h2
      have hmem := List.mem_of_find?_eq_some h2
      refine ⟨f, hmem, Or.inr ?_⟩
      simpa using hp
    | none =>
      refine iff_of_false (by simp) ?_
      rintro ⟨f, hmem, hf | hf⟩
      · have := List.find?_eq_none.mp h1 f hmem
        simp [hf.1, hf.2] at this
      · have := List.find?_eq_none.mp h2 f hmem
        simp [hf.1, hf.2] at this

/-- An empty friendship store. -/
def exFriendStore : FriendStore := ⟨[], 0⟩

/-- `exFriendStore` after `send_friend_request 1 2`. -/
def exFriendStore1 : FriendStore := ⟨[⟨0, 1, 2, FriendStatus.pending⟩], 1⟩

/-- Claim C6: `send_friend_request` fails, inserting nothing (the error is
raised before the insert), exactly when the two users coincide or a
relationship row already exists between them in either direction, whatever
its status; in particular an immediate second request always fails. -/
theorem send_friend_request_spec :
    (∀ (s : FriendStore) (a b : ℕ),
        ((send_friend_request s a b).toOption = none ↔
          a = b ∨ ∃ f ∈ s.friendships,
            (f.requester_id = a ∧ f.addressee_id = b) ∨
            (f.requester_id = b ∧ f.addressee_id = a))) ∧
    (∀ (s s1 : FriendStore) (a b : ℕ),
        send_friend_request s a b = .ok s1 →
        (send_friend_request s1 a b).toOption = none) := by
  have hiff : ∀ (s : FriendStore) (a b : ℕ),
      ((send_friend_request s a b).toOption = none ↔
        a = b ∨ (getFriendship s a b).isSome = true) := by
    intro s a b
    unfold send_friend_request
    by_cases hab : a = b
    · simp [hab, Except.toOption]
    · have hab' : (a == b) = false := by simp [hab]
      cases hg : getFriendship s a b <;> simp [hab', hg, hab, Except.toOption]
  constructor
  · intro s a b
    rw [hiff, getFriendship_isSome_iff]
  · intro s s1 a b hok
    unfold send_friend_request at hok
    by_cases hab : a = b
    · simp [hab] at hok
    · have hab' : (a == b) = false := by simp [hab]
      rw [if_neg (by simp [hab])] at hok
      cases hg : getFriendship s a b with
      | some f => rw [hg] at hok; simp at hok
      | none =>
        rw [hg] at hok
        simp only [Except.ok.injEq] at hok
        rw [hiff, getFriendship_isSome_iff]
        refine Or.inr ⟨⟨s.nextId, a, b, FriendStatus.pending⟩, ?_, Or.inl ⟨rfl, rfl⟩⟩
        rw [← hok]
        simp

/-- Witness for C6: a second request right after a successful one fails. -/
theorem send_friend_request_spec_witness :
    send_friend_request exFriendStore 1 2 = .ok exFriendStore1 ∧
    (send_friend_request exFriendStore1 1 2).toOption = none :=
  ⟨rfl, send_friend_request_spec.2 exFriendStore exFriendStore1 1 2 rfl⟩

/-- Claim C5: after a successful `send_friend_request A B`, accepting as
`B` succeeds and leaves the two users mutual friends: `are_friends`
probes both orderings, so both directions report `true`. -/
theorem friendship_accept_symmetry (s s1 : FriendStore) (A B : ℕ)
    (hsend : send_friend_request s A B = .ok s1) :
    (accept_friend_request s1 B A).1 = true ∧
    are_friends (accept_friend_request s1 B A).2 A B = true ∧
    are_friends (accept_friend_request s1 B A).2 B A = true := by
  unfold send_friend_request at hsend
  by_cases hab : A = B
  · simp [hab] at hsend
  · rw [if_neg (by simp [hab])] at hsend
    cases hg : getFriendship s A B with
    | some f => rw [hg] at hsend; simp at hsend
    | none =>
      rw [hg] at hsend
      simp only [Except.ok.injEq] at hsend
      -- split the double-probe lookup that found nothing
      unfold getFriendship at hg
      cases h1 : s.friendships.find? (fun f => f.requester_id == A && f.addressee_id == B) with
      | some f => rw [h1] at hg; simp at hg
      | none =>
        rw [h1] at hg
        simp only at hg
        -- the inserted pending row
        have hl1 : s1.friendships =
            s.friendships ++ [⟨s.nextId, A, B, FriendStatus.pending⟩] := by
          rw [← hsend]
        have hfind1 : s1.friendships.find?
            (fun f => f.requester_id == A && f.addressee_id == B) =
            some ⟨s.nextId, A, B, FriendStatus.pending⟩ := by
          rw [hl1, find?_append_of_none _ _ _ h1]
          simp
        have hgf1 : getFriendship s1 A B =
            some ⟨s.nextId, A, B, FriendStatus.pending⟩ := by
          unfold getFriendship
          rw [hfind1]
        have hfind2 : s1.friendships.find?
            (fun f => f.requester_id == B && f.addressee_id == A) = none := by
          rw [hl1, find?_append_of_none _ _ _ hg]
          simp [List.find?_cons, hab]
        -- the accept call updates the row in place
        have hacc : accept_friend_request s1 B A =
            (true, { s1 with friendships := (updateById Friendship.id s1.friendships s.nextId (fun g => { g with status := FriendStatus.accepted })) }) := by
          unfold accept_friend_request
          rw [hgf1]
          rfl
        rw [hacc]
        have hup1 : (updateById Friendship.id s1.friendships s.nextId (fun g => { g with status := FriendStatus.accepted })).find? (fun f => f.requester_id == A && f.addressee_id == B) = some ⟨s.nextId, A, B, FriendStatus.accepted⟩ := by
          rw [find?_updateById_pred Friendship.id s1.friendships s.nextId (fun g => { g with status := FriendStatus.accepted }) (fun f => f.requester_id == A && f.addressee_id == B) (fun x => rfl), hfind1]
          simp
        have hup2 : (updateById Friendship.id s1.friendships s.nextId (fun g => { g with status := FriendStatus.accepted })).find? (fun f => f.requester_id == B && f.addressee_id == A) = none := by
          rw [find?_updateById_pred Friendship.id s1.friendships s.nextId (fun g => { g with status := FriendStatus.accepted }) (fun f => f.requester_id == B && f.addressee_id == A) (fun x => rfl), hfind2]
          rfl
        refine ⟨rfl, ?_, ?_⟩
        · unfold are_friends getFriendship
          simp only [hup1]
          rfl
        · unfold are_friends getFriendship
          simp only [hup2, hup1]
          rfl

/-- Witness for C5 on the concrete two-user store. -/
theorem friendship_accept_symmetry_witness :
    send_friend_request exFriendStore 1 2 = .ok exFriendStore1 ∧
    (accept_friend_request exFriendStore1 2 1).1 = true ∧
    are_friends (accept_friend_request exFriendStore1 2 1).2 1 2 = true ∧
    are_friends (accept_friend_request exFriendStore1 2 1).2 2 1 = true :=
  ⟨rfl, friendship_accept_symmetry exFriendStore exFriendStore1 1 2 rfl⟩

/-! ### Lobby claims -/

/-- The Python guard `lobby.password and lobby.password != password` as a
proposition: a non-empty password is stored and differs from the one
supplied. -/
theorem password_guard_iff (op pw : Option String) :
    (truthyStr op && op != pw) = true ↔
      ∃ p, op = some p ∧ p ≠ "" ∧ some p ≠ pw := by
  cases op with
  | none => simp [truthyStr]
  | some p => simp [truthyStr]

/-- A waiting two-player lobby holding one player. -/
def exLobby : Lobby :=
  ⟨1, "raid", 10, 5, 2, 1, true, none, LobbyStatus.waiting, none⟩

/-- A store holding only `exLobby`. -/
def exLobbyStore : LobbyStore := ⟨[exLobby], []⟩

/-- A waiting lobby whose player count has been decremented to zero. -/
def cexLobby : Lobby :=
  ⟨1, "raid", 10, 5, 4, 0, true, none, LobbyStatus.waiting, none⟩

/-- A store holding only `cexLobby`. -/
def cexLobbyStore : LobbyStore := ⟨[cexLobby], []⟩

/-- Counterexample to C2 as stated: the creator calls `start_lobby` on an
existing lobby in `waiting` status, yet the call fails, because the source
additionally requires `current_players >= 1` (a waiting lobby can reach
zero players through `leave_lobby`, which floors at zero). -/
theorem start_lobby_claim_cex :
    get_lobby_by_id cexLobbyStore 1 = some cexLobby ∧
    cexLobby.creator_id = 10 ∧
    cexLobby.status = LobbyStatus.waiting ∧
    (start_lobby cexLobbyStore 1 10 0).1 = false := by decide


/-- Looking a lobby up after an in-place update of that lobby. -/
theorem get_lobby_by_id_updateById (s : LobbyStore) (lid : ℕ)
    (f : Lobby → Lobby) (hid : ∀ x, (f x).id = x.id) (lobby : Lobby)
    (hfind : get_lobby_by_id s lid = some lobby) :
    get_lobby_by_id { s with lobbies := (updateById Lobby.id s.lobbies lid f) } lid = some (f lobby) := by
  unfold get_lobby_by_id at hfind ⊢
  rw [find?_updateById Lobby.id s.lobbies lid f hid, hfind]
  rfl

/-- Claim C2 (amended): `start_lobby` succeeds if and only if the lobby
exists, the caller is its creator, its status is `waiting`, and it holds
at least one player; on success it sets `status = in_game` and
`started_at = now`, and on failure the store is unchanged. -/
theorem start_lobby_spec (s : LobbyStore) (lid cid now : ℕ) :
    ((start_lobby s lid cid now).1 = true ↔
      ∃ l, get_lobby_by_id s lid = some l ∧ l.creator_id = cid ∧
        l.status = LobbyStatus.waiting ∧ 1 ≤ l.current_players) ∧
    (∀ l, get_lobby_by_id s lid = some l → (start_lobby s lid cid now).1 = true →
      get_lobby_by_id (start_lobby s lid cid now).2 lid =
        some { l with status := LobbyStatus.in_game, started_at := some now }) ∧
    ((start_lobby s lid cid now).1 = false → (start_lobby s lid cid now).2 = s) := by
  cases hfind : get_lobby_by_id s lid with
  | none =>
    have hres : start_lobby s lid cid now = (false, s) := by
      simp [start_lobby, hfind]
    refine ⟨?_, ?_, ?_⟩
    · rw [hres]
      refine iff_of_false (by simp) ?_
      rintro ⟨l, hl, -⟩
      exact Option.noConfusion hl
    · intro l hl
      exact Option.noConfusion hl
    · intro _
      rw [hres]
  | some lobby =>
    by_cases hc : lobby.creator_id = cid
    · by_cases hs : lobby.status = LobbyStatus.waiting
      · by_cases hp : lobby.current_players < 1
        · have hres : start_lobby s lid cid now = (false, s) := by
            simp [start_lobby, hfind, hc, hs, hp]
          refine ⟨?_, ?_, ?_⟩
          · rw [hres]
            refine iff_of_false (by simp) ?_
            rintro ⟨l, hl, -, -, hcp⟩
            injection hl with h
            subst h
            omega
          · intro l hl htrue
            rw [hres] at htrue
            simp at htrue
          · intro _
            rw [hres]
        · have hres : start_lobby s lid cid now =
              (true, { s with lobbies := (updateById Lobby.id s.lobbies lid (fun l => { l with status := LobbyStatus.in_game, started_at := some now })) }) := by
            simp [start_lobby, hfind, hc, hs, hp]
          refine ⟨?_, ?_, ?_⟩
          · rw [hres]
            exact iff_of_true rfl ⟨lobby, rfl, hc, hs, by omega⟩
          · intro l hl _
            injection hl with h
            subst h
            rw [hres]
            exact get_lobby_by_id_updateById s lid (fun l => { l with status := LobbyStatus.in_game, started_at := some now }) (fun x => rfl) lobby hfind
          · intro hfalse
            rw [hres] at hfalse
            simp at hfalse
      · have hres : start_lobby s lid cid now = (false, s) := by
          simp [start_lobby, hfind, hc, hs]
        refine ⟨?_, ?_, ?_⟩
        · rw [hres]
          refine iff_of_false (by simp) ?_
          rintro ⟨l, hl, -, hstat, -⟩
          injection hl with h
          subst h
          exact hs hstat
        · intro l hl htrue
          rw [hres] at htrue
          simp at htrue
        · intro _
          rw [hres]
    · have hres : start_lobby s lid cid now = (false, s) := by
        simp [start_lobby, hfind, hc]
      refine ⟨?_, ?_, ?_⟩
      · rw [hres]
        refine iff_of_false (by simp) ?_
        rintro ⟨l, hl, hcreator, -, -⟩
        injection hl with h
        subst h
        exact hc hcreator
      · intro l hl htrue
        rw [hres] at htrue
        simp at htrue
      · intro _
        rw [hres]

/-- Witness for C2 (amended) on the one-player waiting lobby. -/
theorem start_lobby_spec_witness :
    get_lobby_by_id exLobbyStore 1 = some exLobby ∧
    (start_lobby exLobbyStore 1 10 42).1 = true ∧
    get_lobby_by_id (start_lobby exLobbyStore 1 10 42).2 1 =
      some { exLobby with status := LobbyStatus.in_game, started_at := some 42 } :=
  ⟨by decide, by decide,
    (start_lobby_spec exLobbyStore 1 10 42).2.1 exLobby (by decide) (by decide)⟩

/-- Claim C3: `join_lobby` fails, leaving the store unchanged, exactly
when the lobby is absent, not `waiting`, at capacity, or guarded by a
password — in the source's sense of a truthy (non-empty) stored
password — different from the supplied one; otherwise it succeeds and
increments `current_players` by one. -/
theorem join_lobby_spec (s : LobbyStore) (lid uid : ℕ) (pw : Option String) :
    ((join_lobby s lid uid pw).1 = false ↔
      get_lobby_by_id s lid = none ∨
        ∃ l, get_lobby_by_id s lid = some l ∧
          (l.status ≠ LobbyStatus.waiting ∨
           l.max_players ≤ l.current_players ∨
           ∃ p, l.password = some p ∧ p ≠ "" ∧ some p ≠ pw)) ∧
    ((join_lobby s lid uid pw).1 = false → (join_lobby s lid uid pw).2 = s) ∧
    (∀ l, get_lobby_by_id s lid = some l → (join_lobby s lid uid pw).1 = true →
      get_lobby_by_id (join_lobby s lid uid pw).2 lid =
        some { l with current_players := l.current_players + 1 }) := by
  cases hfind : get_lobby_by_id s lid with
  | none =>
    have hres : join_lobby s lid uid pw = (false, s) := by
      simp [join_lobby, hfind]
    refine ⟨?_, ?_, ?_⟩
    · rw [hres]
      exact iff_of_true rfl (Or.inl rfl)
    · intro _
      rw [hres]
    · intro l hl
      exact Option.noConfusion hl
  | some lobby =>
    by_cases hs : lobby.status = LobbyStatus.waiting
    · by_cases hcap : lobby.max_players ≤ lobby.current_players
      · have hres : join_lobby s lid uid pw = (false, s) := by
          simp [join_lobby, hfind, hs, hcap]
        refine ⟨?_, ?_, ?_⟩
        · rw [hres]
          exact iff_of_true rfl (Or.inr ⟨lobby, rfl, Or.inr (Or.inl hcap)⟩)
        · intro _
          rw [hres]
        · intro l hl htrue
          rw [hres] at htrue
          simp at htrue
      · by_cases hpw : (truthyStr lobby.password && lobby.password != pw) = true
        · have hres : join_lobby s lid uid pw = (false, s) := by
            simp only [join_lobby, hfind]
            rw [if_neg (by simp [hs]), if_neg hcap, if_pos hpw]
          refine ⟨?_, ?_, ?_⟩
          · rw [hres]
            exact iff_of_true rfl
              (Or.inr ⟨lobby, rfl, Or.inr (Or.inr ((password_guard_iff _ _).mp hpw))⟩)
          · intro _
            rw [hres]
          · intro l hl htrue
            rw [hres] at htrue
            simp at htrue
        · have hres : join_lobby s lid uid pw =
              (true, { s with lobbies := (updateById Lobby.id s.lobbies lid (fun l => { l with current_players := lobby.current_players + 1 })) }) := by
            simp only [join_lobby, hfind]
            rw [if_neg (by simp [hs]), if_neg hcap, if_neg hpw]
          refine ⟨?_, ?_, ?_⟩
          · rw [hres]
            refine iff_of_false (by simp) ?_
            rintro (hnone | ⟨l, hl, hcond⟩)
            · exact Option.noConfusion hnone
            · injection hl with h
              subst h
              rcases hcond with hstat | hcap' | hpw'
              · exact hstat hs
              · exact hcap hcap'
              · exact hpw ((password_guard_iff _ _).mpr hpw')
          · intro hfalse
            rw [hres] at hfalse
            simp at hfalse
          · intro l hl _
            injection hl with h
            subst h
            rw [hres]
            exact get_lobby_by_id_updateById s lid (fun l => { l with current_players := lobby.current_players + 1 }) (fun x => rfl) lobby hfind
    · have hres : join_lobby s lid uid pw = (false, s) := by
        simp [join_lobby, hfind, hs]
      refine ⟨?_, ?_, ?_⟩
      · rw [hres]
        exact iff_of_true rfl (Or.inr ⟨lobby, rfl, Or.inl hs⟩)
      · intro _
        rw [hres]
      · intro l hl htrue
        rw [hres] at htrue
        simp at htrue

/-- Witness for C3: joining the open one-slot lobby succeeds and fills it. -/
theorem join_lobby_spec_witness :
    get_lobby_by_id exLobbyStore 1 = some exLobby ∧
    (join_lobby exLobbyStore 1 7 none).1 = true ∧
    get_lobby_by_id (join_lobby exLobbyStore 1 7 none).2 1 =
      some { exLobby with current_players := 2 } :=
  ⟨by decide, by decide,
    (join_lobby_spec exLobbyStore 1 7 none).2.2 exLobby (by decide) (by decide)⟩

/-- Claim C7: `leave_lobby` fails exactly when the lobby is absent or not
`waiting`; otherwise it succeeds for any caller — the user is never
checked for membership — and floors the decremented player count at
zero, so the count never drops below zero. -/
theorem leave_lobby_spec (s : LobbyStore) (lid uid : ℕ) :
    ((leave_lobby s lid uid).1 = false ↔
      get_lobby_by_id s lid = none ∨
        ∃ l, get_lobby_by_id s lid = some l ∧ l.status ≠ LobbyStatus.waiting) ∧
    ((leave_lobby s lid uid).1 = false → (leave_lobby s lid uid).2 = s) ∧
    (∀ l, get_lobby_by_id s lid = some l → (leave_lobby s lid uid).1 = true →
      get_lobby_by_id (leave_lobby s lid uid).2 lid =
        some { l with current_players := max 0 (l.current_players - 1) } ∧
      ∀ l', get_lobby_by_id (leave_lobby s lid uid).2 lid = some l' →
        0 ≤ l'.current_players) := by
  cases hfind : get_lobby_by_id s lid with
  | none =>
    have hres : leave_lobby s lid uid = (false, s) := by
      simp [leave_lobby, hfind]
    refine ⟨?_, ?_, ?_⟩
    · rw [hres]
      exact iff_of_true rfl (Or.inl rfl)
    · intro _
      rw [hres]
    · intro l hl
      exact Option.noConfusion hl
  | some lobby =>
    by_cases hs : lobby.status = LobbyStatus.waiting
    · have hres : leave_lobby s lid uid =
          (true, { s with lobbies := (updateById Lobby.id s.lobbies lid (fun l => { l with current_players := max 0 (lobby.current_players - 1) })) }) := by
        simp [leave_lobby, hfind, hs]
      refine ⟨?_, ?_, ?_⟩
      · rw [hres]
        refine iff_of_false (by simp) ?_
        rintro (hnone | ⟨l, hl, hstat⟩)
        · exact Option.noConfusion hnone
        · injection hl with h
          subst h
          exact hstat hs
      · intro hfalse
        rw [hres] at hfalse
        simp at hfalse
      · intro l hl _
        injection hl with h
        subst h
        have hget : get_lobby_by_id (leave_lobby s lid uid).2 lid =
            some { lobby with current_players := max 0 (lobby.current_players - 1) } := by
          rw [hres]
          exact get_lobby_by_id_updateById s lid (fun l => { l with current_players := max 0 (lobby.current_players - 1) }) (fun x => rfl) lobby hfind
        refine ⟨hget, ?_⟩
        intro l' hl'
        rw [hget] at hl'
        injection hl' with h'
        subst h'
        simp
    · have hres : leave_lobby s lid uid = (false, s) := by
        simp [leave_lobby, hfind, hs]
      refine ⟨?_, ?_, ?_⟩
      · rw [hres]
        exact iff_of_true rfl (Or.inr ⟨lobby, rfl, hs⟩)
      · intro _
        rw [hres]
      · intro l hl htrue
        rw [hres] at htrue
        simp at htrue

/-- Witness for C7: an arbitrary caller leaves the waiting zero-player
lobby; the count stays at zero. -/
theorem leave_lobby_spec_witness :
    get_lobby_by_id cexLobbyStore 1 = some cexLobby ∧
    (leave_lobby cexLobbyStore 1 77).1 = true ∧
    get_lobby_by_id (leave_lobby cexLobbyStore 1 77).2 1 =
      some { cexLobby with current_players := max 0 (cexLobby.current_players - 1) } :=
  ⟨by decide, by decide,
    ((leave_lobby_spec cexLobbyStore 1 77).2.2 cexLobby (by decide) (by decide)).1⟩

/-- A full two-player waiting lobby. -/
def exInviteLobby : Lobby :=
  ⟨1, "raid", 10, 5, 2, 2, true, none, LobbyStatus.waiting, none⟩

/-- A pending invite to `exInviteLobby` for user 7, expiring at time 100. -/
def exInvite : LobbyInvite := ⟨2, 1, 10, 7, 0, 100, none⟩

/-- A store with the full lobby and one pending invite. -/
def exInviteStore : LobbyStore := ⟨[exInviteLobby], [exInvite]⟩

/-- Claim C10: `accept_lobby_invite` flags the invite accepted before the
join; when the join then fails (lobby absent, not waiting, or full), the
call returns false, the lobby list — and so `current_players` — is
untouched, the invite row keeps `is_accepted = true`, and the invite no
longer appears in the user's pending listing at any time. -/
theorem accept_lobby_invite_nonatomic (s : LobbyStore)
    (invite_id uid now : ℕ) (invite : LobbyInvite)
    (hfind : s.invites.find? (fun i => i.id == invite_id && i.invitee_id == uid) = some invite)
    (hfresh : now < invite.expires_at)
    (hjoin : get_lobby_by_id s invite.lobby_id = none ∨
      ∃ l, get_lobby_by_id s invite.lobby_id = some l ∧
        (l.status ≠ LobbyStatus.waiting ∨ l.max_players ≤ l.current_players)) :
    (accept_lobby_invite s invite_id uid now).1 = false ∧
    (accept_lobby_invite s invite_id uid now).2.lobbies = s.lobbies ∧
    (∃ i', (accept_lobby_invite s invite_id uid now).2.invites.find?
        (fun i => i.id == invite_id) = some i' ∧ i'.is_accepted = some true) ∧
    (∀ t, ∀ i ∈ get_lobby_invites (accept_lobby_invite s invite_id uid now).2 uid t,
      i.id ≠ invite_id) := by
  have hnlt : ¬ invite.expires_at < now := by omega
  set s1 : LobbyStore := { s with invites := (updateById LobbyInvite.id s.invites invite_id (fun i => { i with is_accepted := some true })) } with hs1
  have heval : accept_lobby_invite s invite_id uid now =
      join_lobby s1 invite.lobby_id uid none := by
    unfold accept_lobby_invite
    rw [hfind]
    show (if invite.expires_at < now then (false, s)
          else join_lobby s1 invite.lobby_id uid none) =
        join_lobby s1 invite.lobby_id uid none
    rw [if_neg hnlt]
  have hsame : get_lobby_by_id s1 invite.lobby_id =
      get_lobby_by_id s invite.lobby_id := rfl
  have hjoinres : join_lobby s1 invite.lobby_id uid none = (false, s1) := by
    rcases hjoin with hnone | ⟨l, hl, hcond⟩
    · unfold join_lobby
      rw [hsame, hnone]
    · unfold join_lobby
      rw [hsame, hl]
      show (if l.status != LobbyStatus.waiting then (false, s1)
            else if l.max_players ≤ l.current_players then (false, s1)
            else if truthyStr l.password && l.password != none then (false, s1)
            else (true, { s1 with lobbies := (updateById Lobby.id s1.lobbies invite.lobby_id (fun x => { x with current_players := l.current_players + 1 })) })) =
          (false, s1)
      by_cases hstat : l.status = LobbyStatus.waiting
      · rcases hcond with hcond | hcond
        · exact absurd hstat hcond
        · rw [if_neg (by simp [hstat]), if_pos hcond]
      · rw [if_pos (by simp [hstat])]
  rw [heval, hjoinres]
  refine ⟨rfl, rfl, ?_, ?_⟩
  · have hp := List.find?_some hfind
    have hmem := List.mem_of_find?_eq_some hfind
    have hid : (invite.id == invite_id) = true := by
      simp only [Bool.and_eq_true] at hp
      exact hp.1
    have hsomez : (s.invites.find? (fun i => i.id == invite_id)).isSome := by
      rw [List.find?_isSome]
      exact ⟨invite, hmem, hid⟩
    obtain ⟨z, hz⟩ := Option.isSome_iff_exists.mp hsomez
    refine ⟨{ z with is_accepted := some true }, ?_, rfl⟩
    show (updateById LobbyInvite.id s.invites invite_id (fun i => { i with is_accepted := some true })).find? (fun i => i.id == invite_id) = some { z with is_accepted := some true }
    rw [find?_updateById LobbyInvite.id s.invites invite_id (fun i => { i with is_accepted := some true }) (fun x => rfl), hz]
    rfl
  · intro t i hi
    unfold get_lobby_invites at hi
    rw [List.mem_filter] at hi
    obtain ⟨hmem, hpred⟩ := hi
    simp only [Bool.and_eq_true, beq_iff_eq, decide_eq_true_eq] at hpred
    obtain ⟨⟨h1, hacc⟩, h3⟩ := hpred
    have hmem2 : i ∈ List.map (fun x => if LobbyInvite.id x == invite_id then { x with is_accepted := some true } else x) s.invites := hmem
    rw [List.mem_map] at hmem2
    obtain ⟨y, -, hy⟩ := hmem2
    intro hcontra
    by_cases hyid : (y.id == invite_id) = true
    · rw [if_pos hyid] at hy
      rw [← hy] at hacc
      exact Option.noConfusion hacc
    · rw [if_neg hyid] at hy
      rw [← hy] at hcontra
      simp [hcontra] at hyid

/-- Witness for C10: user 7 accepts the invite to the already-full lobby;
the call fails but the invite stays flagged accepted and disappears from
the pending listing. -/
theorem accept_lobby_invite_nonatomic_witness :
    exInviteStore.invites.find? (fun i => i.id == 2 && i.invitee_id == 7) = some exInvite ∧
    (50 < exInvite.expires_at) ∧
    ((accept_lobby_invite exInviteStore 2 7 50).1 = false ∧
     (accept_lobby_invite exInviteStore 2 7 50).2.lobbies = exInviteStore.lobbies ∧
     (∃ i', (accept_lobby_invite exInviteStore 2 7 50).2.invites.find?
         (fun i => i.id == 2) = some i' ∧ i'.is_accepted = some true) ∧
     (∀ t, ∀ i ∈ get_lobby_invites (accept_lobby_invite exInviteStore 2 7 50).2 7 t,
       i.id ≠ 2)) :=
  ⟨by decide, by decide,
    accept_lobby_invite_nonatomic exInviteStore 2 7 50 exInvite (by decide)
      (by decide) (Or.inr ⟨exInviteLobby, by decide, Or.inr (by decide)⟩)⟩

/-! ### Rating-aggregation claims -/

theorem get_dungeon_by_id_updateById (s : DungeonStore) (d : ℕ)
    (f : Dungeon → Dungeon) (hid : ∀ x, (f x).id = x.id) (dg : Dungeon)
    (hfind : get_dungeon_by_id s d = some dg) :
    get_dungeon_by_id { s with dungeons := (updateById Dungeon.id s.dungeons d f) } d = some (f dg) := by
  unfold get_dungeon_by_id at hfind ⊢
  rw [find?_updateById Dungeon.id s.dungeons d f hid, hfind]
  rfl

theorem update_dungeon_rating_eval (s1 : DungeonStore) (d : ℕ) (dg0 : Dungeon)
    (hne : (dungeonRatings s1 d).isEmpty = false)
    (hdg0 : get_dungeon_by_id s1 d = some dg0) :
    update_dungeon_rating s1 d =
      { s1 with dungeons := (updateById Dungeon.id s1.dungeons d (fun x => { x with average_rating := round2 (((((dungeonRatings s1 d).map (fun r => r.rating)).sum : ℤ) : ℚ) / ((dungeonRatings s1 d).length : ℚ)), total_ratings := (dungeonRatings s1 d).length })) } := by
  unfold update_dungeon_rating
  rw [if_neg (by simp [hne]), hdg0]

theorem update_dungeon_rating_spec (s1 : DungeonStore) (d : ℕ) (dg0 : Dungeon)
    (hne : (dungeonRatings s1 d).isEmpty = false)
    (hdg0 : get_dungeon_by_id s1 d = some dg0) :
    dungeonRatings (update_dungeon_rating s1 d) d = dungeonRatings s1 d ∧
    get_dungeon_by_id (update_dungeon_rating s1 d) d =
      some { dg0 with average_rating := round2 (((((dungeonRatings s1 d).map (fun r => r.rating)).sum : ℤ) : ℚ) / ((dungeonRatings s1 d).length : ℚ)), total_ratings := (dungeonRatings s1 d).length } := by
  rw [update_dungeon_rating_eval s1 d dg0 hne hdg0]
  constructor
  · rfl
  · exact get_dungeon_by_id_updateById s1 d (fun x => { x with average_rating := round2 (((((dungeonRatings s1 d).map (fun r => r.rating)).sum : ℤ) : ℚ) / ((dungeonRatings s1 d).length : ℚ)), total_ratings := (dungeonRatings s1 d).length }) (fun x => rfl) dg0 hdg0

theorem rate_dungeon_aggregates_aux (s : DungeonStore) (d u : ℕ) (r : ℤ)
    (c : Option String) (s' : DungeonStore) (dg0 : Dungeon)
    (hok : rate_dungeon s d u r c = .ok s')
    (hex : get_dungeon_by_id s d = some dg0) :
    ∃ dg, get_dungeon_by_id s' d = some dg ∧
      dg.average_rating = round2 (((((dungeonRatings s' d).map (fun x => x.rating)).sum : ℤ) : ℚ) / ((dungeonRatings s' d).length : ℚ)) ∧
      dg.total_ratings = (dungeonRatings s' d).length := by
  unfold rate_dungeon at hok
  by_cases hr : r < 1 ∨ 5 < r
  · rw [if_pos hr] at hok
    exact Except.noConfusion hok
  · rw [if_neg hr] at hok
    cases hpair : pairRatings s d u with
    | nil =>
      rw [hpair] at hok
      have hok2 : (Except.ok (update_dungeon_rating { s with ratings := s.ratings ++ [⟨s.nextId, d, u, r, c⟩], nextId := s.nextId + 1 } d) : Except String DungeonStore) = Except.ok s' := hok
      simp only [Except.ok.injEq] at hok2
      subst hok2
      have hmem : (⟨s.nextId, d, u, r, c⟩ : RatingRow) ∈ dungeonRatings { s with ratings := s.ratings ++ [⟨s.nextId, d, u, r, c⟩], nextId := s.nextId + 1 } d := by
        unfold dungeonRatings
        rw [List.mem_filter]
        refine ⟨by simp, by simp⟩
      have hne : (dungeonRatings { s with ratings := s.ratings ++ [⟨s.nextId, d, u, r, c⟩], nextId := s.nextId + 1 } d).isEmpty = false := by
        rw [List.isEmpty_eq_false]
        exact List.ne_nil_of_mem hmem
      have hex1 : get_dungeon_by_id { s with ratings := s.ratings ++ [⟨s.nextId, d, u, r, c⟩], nextId := s.nextId + 1 } d = some dg0 := hex
      obtain ⟨hsame, hget⟩ := update_dungeon_rating_spec _ d dg0 hne hex1
      rw [hsame]
      exact ⟨_, hget, rfl, rfl⟩
    | cons e rest =>
      rw [hpair] at hok
      have hok2 : (Except.ok (update_dungeon_rating { s with ratings := (updateById RatingRow.id s.ratings e.id (fun x => { x with rating := r, comment := c })) } d) : Except String DungeonStore) = Except.ok s' := hok
      simp only [Except.ok.injEq] at hok2
      subst hok2
      have he : e ∈ pairRatings s d u := by
        rw [hpair]
        exact List.mem_cons_self e rest
      have hemem := List.mem_filter.mp he
      have hed : e.dungeon_id = d := by
        have h2 := hemem.2
        simp only [Bool.and_eq_true, beq_iff_eq] at h2
        exact h2.1
      have hmem : (fun x => if RatingRow.id x == e.id then { x with rating := r, comment := c } else x) e ∈ updateById RatingRow.id s.ratings e.id (fun x => { x with rating := r, comment := c }) :=
        List.mem_map_of_mem _ hemem.1
      have hmem2 : (fun x => if RatingRow.id x == e.id then { x with rating := r, comment := c } else x) e ∈ dungeonRatings { s with ratings := (updateById RatingRow.id s.ratings e.id (fun x => { x with rating := r, comment := c })) } d := by
        unfold dungeonRatings
        rw [List.mem_filter]
        refine ⟨hmem, ?_⟩
        simp [hed]
      have hne : (dungeonRatings { s with ratings := (updateById RatingRow.id s.ratings e.id (fun x => { x with rating := r, comment := c })) } d).isEmpty = false := by
        rw [List.isEmpty_eq_false]
        exact List.ne_nil_of_mem hmem2
      have hex1 : get_dungeon_by_id { s with ratings := (updateById RatingRow.id s.ratings e.id (fun x => { x with rating := r, comment := c })) } d = some dg0 := hex
      obtain ⟨hsame, hget⟩ := update_dungeon_rating_spec _ d dg0 hne hex1
      rw [hsame]
      exact ⟨_, hget, rfl, rfl⟩

/-- Claim C1: after every successful `rate_dungeon` call on an existing
dungeon, that dungeon's `average_rating` equals the mean of the full
re-read rating set rounded to two decimal places, and `total_ratings`
equals the count of that rating set. -/
theorem rate_dungeon_aggregates (s : DungeonStore) (d u : ℕ) (r : ℤ)
    (c : Option String) (s' : DungeonStore) (dg0 : Dungeon)
    (hok : rate_dungeon s d u r c = .ok s')
    (hex : get_dungeon_by_id s d = some dg0) :
    ∃ dg, get_dungeon_by_id s' d = some dg ∧
      dg.average_rating = round2 (((((dungeonRatings s' d).map (fun x => x.rating)).sum : ℤ) : ℚ) / ((dungeonRatings s' d).length : ℚ)) ∧
      dg.total_ratings = (dungeonRatings s' d).length :=
  rate_dungeon_aggregates_aux s d u r c s' dg0 hok hex

/-- The store of `exDungeonStore` after user 2 rates dungeon 1 with 3. -/
def exDungeonStorePost : DungeonStore := ⟨[⟨1, 9, 3, 1⟩], [⟨0, 1, 2, 3, none⟩], 1⟩

/-- Witness for C1: rating the example dungeon with a 3 leaves mean 3.00
and one rating. -/
theorem rate_dungeon_aggregates_witness :
    rate_dungeon exDungeonStore 1 2 3 none = .ok exDungeonStorePost ∧
    get_dungeon_by_id exDungeonStore 1 = some ⟨1, 9, 0, 0⟩ ∧
    (∃ dg, get_dungeon_by_id exDungeonStorePost 1 = some dg ∧
      dg.average_rating = round2 (((((dungeonRatings exDungeonStorePost 1).map (fun x => x.rating)).sum : ℤ) : ℚ) / ((dungeonRatings exDungeonStorePost 1).length : ℚ)) ∧
      dg.total_ratings = (dungeonRatings exDungeonStorePost 1).length) := by
  have hok : rate_dungeon exDungeonStore 1 2 3 none = .ok exDungeonStorePost := by
    norm_num [rate_dungeon, exDungeonStore, exDungeonStorePost, pairRatings, update_dungeon_rating, dungeonRatings, get_dungeon_by_id, updateById, round2, roundHalfEven]
  exact ⟨hok, by decide,
    rate_dungeon_aggregates exDungeonStore 1 2 3 none exDungeonStorePost ⟨1, 9, 0, 0⟩ hok (by decide)⟩

/-! ### Helpers for the rating-idempotence claim -/

theorem updateById_eq_self {α : Type} (getId : α → ℕ) (l : List α) (i : ℕ)
    (f : α → α) (h : ∀ x ∈ l, getId x ≠ i) : updateById getId l i f = l := by
  induction l with
  | nil => rfl
  | cons a t ih =>
    rw [updateById_cons]
    have ha : (getId a == i) = false := by
      simp [h a (List.mem_cons_self a t)]
    rw [ha]
    simp only [Bool.false_eq_true, if_false]
    rw [ih (fun x hx => h x (List.mem_cons_of_mem a hx))]

theorem updateById_updateById {α : Type} (getId : α → ℕ) (l : List α) (i : ℕ)
    (f g : α → α) (hid : ∀ x, getId (f x) = getId x) :
    updateById getId (updateById getId l i f) i g =
      updateById getId l i (fun x => g (f x)) := by
  unfold updateById
  rw [List.map_map]
  apply List.map_congr_left
  intro a _
  by_cases h : getId a = i
  · simp [Function.comp, h, hid]
  · simp [Function.comp, h]

theorem update_dungeon_rating_ratings (t : DungeonStore) (d : ℕ) :
    (update_dungeon_rating t d).ratings = t.ratings ∧
    (update_dungeon_rating t d).nextId = t.nextId := by
  unfold update_dungeon_rating
  by_cases he : (dungeonRatings t d).isEmpty = true
  · rw [if_pos he]
    exact ⟨rfl, rfl⟩
  · rw [if_neg he]
    cases hg : get_dungeon_by_id t d with
    | none => exact ⟨rfl, rfl⟩
    | some dg => exact ⟨rfl, rfl⟩

theorem update_dungeon_rating_eval_none (t : DungeonStore) (d : ℕ)
    (hdg : get_dungeon_by_id t d = none) :
    update_dungeon_rating t d = t := by
  unfold update_dungeon_rating
  by_cases he : (dungeonRatings t d).isEmpty = true
  · rw [if_pos he]
  · rw [if_neg he, hdg]

theorem rate_dungeon_eval_nil (s : DungeonStore) (d u : ℕ) (r : ℤ)
    (c : Option String) (hr : ¬(r < 1 ∨ 5 < r)) (hpair : pairRatings s d u = []) :
    rate_dungeon s d u r c =
      .ok (update_dungeon_rating { s with ratings := s.ratings ++ [⟨s.nextId, d, u, r, c⟩], nextId := s.nextId + 1 } d) := by
  unfold rate_dungeon
  rw [if_neg hr, hpair]

theorem rate_dungeon_eval_cons (s : DungeonStore) (d u : ℕ) (r : ℤ)
    (c : Option String) (e : RatingRow) (rest : List RatingRow)
    (hr : ¬(r < 1 ∨ 5 < r)) (hpair : pairRatings s d u = e :: rest) :
    rate_dungeon s d u r c =
      .ok (update_dungeon_rating { s with ratings := (updateById RatingRow.id s.ratings e.id (fun x => { x with rating := r, comment := c })) } d) := by
  unfold rate_dungeon
  rw [if_neg hr, hpair]

theorem update_dungeon_rating_after_agg (ds : List Dungeon) (R : List RatingRow)
    (n d : ℕ) (vA : ℚ) (tA : ℕ)
    (hne : (R.filter (fun x => x.dungeon_id == d)).isEmpty = false) :
    update_dungeon_rating ⟨(updateById Dungeon.id ds d (fun x => { x with average_rating := vA, total_ratings := tA })), R, n⟩ d =
      update_dungeon_rating ⟨ds, R, n⟩ d := by
  cases hfd : ds.find? (fun x => x.id == d) with
  | none =>
    have h1 : updateById Dungeon.id ds d (fun x => { x with average_rating := vA, total_ratings := tA }) = ds := by
      apply updateById_eq_self
      intro x hx
      have := List.find?_eq_none.mp hfd x hx
      simpa using this
    rw [h1]
  | some dg =>
    have hgetL : get_dungeon_by_id ⟨(updateById Dungeon.id ds d (fun x => { x with average_rating := vA, total_ratings := tA })), R, n⟩ d =
        some { dg with average_rating := vA, total_ratings := tA } := by
      show (updateById Dungeon.id ds d (fun x => { x with average_rating := vA, total_ratings := tA })).find? (fun x => x.id == d) = _
      rw [find?_updateById Dungeon.id ds d (fun x => { x with average_rating := vA, total_ratings := tA }) (fun x => rfl), hfd]
      rfl
    have hgetR : get_dungeon_by_id ⟨ds, R, n⟩ d = some dg := hfd
    have hneL : (dungeonRatings ⟨(updateById Dungeon.id ds d (fun x => { x with average_rating := vA, total_ratings := tA })), R, n⟩ d).isEmpty = false := hne
    have hneR : (dungeonRatings ⟨ds, R, n⟩ d).isEmpty = false := hne
    rw [update_dungeon_rating_eval _ d _ hneL hgetL,
        update_dungeon_rating_eval _ d _ hneR hgetR]
    have habs : updateById Dungeon.id (updateById Dungeon.id ds d (fun x => { x with average_rating := vA, total_ratings := tA })) d
          (fun x => { x with average_rating := round2 (((((dungeonRatings ⟨(updateById Dungeon.id ds d (fun y => { y with average_rating := vA, total_ratings := tA })), R, n⟩ d).map (fun r => r.rating)).sum : ℤ) : ℚ) / ((dungeonRatings ⟨(updateById Dungeon.id ds d (fun y => { y with average_rating := vA, total_ratings := tA })), R, n⟩ d).length : ℚ)), total_ratings := (dungeonRatings ⟨(updateById Dungeon.id ds d (fun y => { y with average_rating := vA, total_ratings := tA })), R, n⟩ d).length }) =
        updateById Dungeon.id ds d
          (fun x => { x with average_rating := round2 (((((dungeonRatings ⟨ds, R, n⟩ d).map (fun r => r.rating)).sum : ℤ) : ℚ) / ((dungeonRatings ⟨ds, R, n⟩ d).length : ℚ)), total_ratings := (dungeonRatings ⟨ds, R, n⟩ d).length }) := by
      rw [updateById_updateById Dungeon.id ds d (fun x => { x with average_rating := vA, total_ratings := tA }) _ (fun x => rfl)]
      rfl
    show ({ dungeons := _, ratings := R, nextId := n } : DungeonStore) = { dungeons := _, ratings := R, nextId := n }
    rw [habs]
theorem updateById_append {α : Type} (getId : α → ℕ) (l1 l2 : List α)
    (i : ℕ) (f : α → α) :
    updateById getId (l1 ++ l2) i f =
      updateById getId l1 i f ++ updateById getId l2 i f :=
  List.map_append _ _ _

theorem rate_dungeon_get_none (s : DungeonStore) (d u : ℕ) (r : ℤ)
    (c : Option String) (s' : DungeonStore)
    (hok : rate_dungeon s d u r c = .ok s')
    (hnone : get_dungeon_by_id s d = none) :
    get_dungeon_by_id s' d = none := by
  have hr : ¬(r < 1 ∨ 5 < r) := by
    intro hcon
    unfold rate_dungeon at hok
    rw [if_pos hcon] at hok
    exact Except.noConfusion hok
  cases hpair : pairRatings s d u with
  | nil =>
    rw [rate_dungeon_eval_nil s d u r c hr hpair] at hok
    simp only [Except.ok.injEq] at hok
    have hWn : get_dungeon_by_id { s with ratings := s.ratings ++ [⟨s.nextId, d, u, r, c⟩], nextId := s.nextId + 1 } d = none := hnone
    rw [← hok, update_dungeon_rating_eval_none _ d hWn]
    exact hWn
  | cons e rest =>
    rw [rate_dungeon_eval_cons s d u r c e rest hr hpair] at hok
    simp only [Except.ok.injEq] at hok
    have hWn : get_dungeon_by_id { s with ratings := (updateById RatingRow.id s.ratings e.id (fun x => { x with rating := r, comment := c })) } d = none := hnone
    rw [← hok, update_dungeon_rating_eval_none _ d hWn]
    exact hWn

theorem total_after_two (s s1 s2 : DungeonStore) (d u : ℕ) (r1 r2 : ℤ)
    (c1 c2 : Option String)
    (h1 : rate_dungeon s d u r1 c1 = .ok s1)
    (h2 : rate_dungeon s1 d u r2 c2 = .ok s2)
    (hlen : (dungeonRatings s2 d).length = (dungeonRatings s1 d).length) :
    (get_dungeon_by_id s2 d).map (fun dg => dg.total_ratings) =
      (get_dungeon_by_id s1 d).map (fun dg => dg.total_ratings) := by
  cases hdg : get_dungeon_by_id s d with
  | none =>
    have h1n : get_dungeon_by_id s1 d = none :=
      rate_dungeon_get_none s d u r1 c1 s1 h1 hdg
    have h2n : get_dungeon_by_id s2 d = none :=
      rate_dungeon_get_none s1 d u r2 c2 s2 h2 h1n
    rw [h1n, h2n]
  | some dg0 =>
    obtain ⟨dg1, hget1, -, htot1⟩ :=
      rate_dungeon_aggregates_aux s d u r1 c1 s1 dg0 h1 hdg
    obtain ⟨dg2, hget2, -, htot2⟩ :=
      rate_dungeon_aggregates_aux s1 d u r2 c2 s2 dg1 h2 hget1
    rw [hget1, hget2]
    simp only [Option.map_some']
    rw [htot1, htot2, hlen]
/-- Claim C4: rating is idempotent per (dungeon, user) pair.  On a store
with fresh-bounded ids holding at most one rating row for the pair,
rating `r1` and then `r2` leaves exactly one stored row for the pair,
`total_ratings` is the same after the second call as after the first,
and the second call returns exactly what rating `r2` directly on the
initial store returns — so `average_rating` reflects only `r2`. -/
theorem rate_dungeon_idempotent (s : DungeonStore) (d u : ℕ) (r1 r2 : ℤ)
    (c1 c2 : Option String) (s1 s2 : DungeonStore)
    (hfresh : ∀ x ∈ s.ratings, x.id < s.nextId)
    (huniq : (pairRatings s d u).length ≤ 1)
    (h1 : rate_dungeon s d u r1 c1 = .ok s1)
    (h2 : rate_dungeon s1 d u r2 c2 = .ok s2) :
    (pairRatings s2 d u).length = 1 ∧
    (get_dungeon_by_id s2 d).map (fun dg => dg.total_ratings) =
      (get_dungeon_by_id s1 d).map (fun dg => dg.total_ratings) ∧
    rate_dungeon s1 d u r2 c2 = rate_dungeon s d u r2 c2 := by
  have hr1 : ¬(r1 < 1 ∨ 5 < r1) := by
    intro hcon
    unfold rate_dungeon at h1
    rw [if_pos hcon] at h1
    exact Except.noConfusion h1
  have hr2 : ¬(r2 < 1 ∨ 5 < r2) := by
    intro hcon
    unfold rate_dungeon at h2
    rw [if_pos hcon] at h2
    exact Except.noConfusion h2
  cases hpair : pairRatings s d u with
  | nil =>
    have h1c := h1
    rw [rate_dungeon_eval_nil s d u r1 c1 hr1 hpair] at h1c
    simp only [Except.ok.injEq] at h1c
    have hrat1 : s1.ratings = s.ratings ++ [⟨s.nextId, d, u, r1, c1⟩] := by
      rw [← h1c]
      exact (update_dungeon_rating_ratings _ d).1
    have hpairq : pairRatings s1 d u = [⟨s.nextId, d, u, r1, c1⟩] := by
      unfold pairRatings at hpair ⊢
      rw [hrat1, List.filter_append, hpair]
      simp
    have hcall2 : rate_dungeon s1 d u r2 c2 =
        .ok (update_dungeon_rating { s1 with ratings := s.ratings ++ [⟨s.nextId, d, u, r2, c2⟩] } d) := by
      have he2 : rate_dungeon s1 d u r2 c2 =
          .ok (update_dungeon_rating { s1 with ratings := (updateById RatingRow.id s1.ratings s.nextId (fun x => { x with rating := r2, comment := c2 })) } d) :=
        rate_dungeon_eval_cons s1 d u r2 c2 ⟨s.nextId, d, u, r1, c1⟩ [] hr2 hpairq
      have hrw : updateById RatingRow.id s1.ratings s.nextId (fun x => { x with rating := r2, comment := c2 }) =
          s.ratings ++ [⟨s.nextId, d, u, r2, c2⟩] := by
        rw [hrat1, updateById_append,
            updateById_eq_self RatingRow.id s.ratings s.nextId _ (fun x hx => Nat.ne_of_lt (hfresh x hx))]
        simp [updateById]
      rw [hrw] at he2
      exact he2
    have h2c := h2
    rw [hcall2] at h2c
    simp only [Except.ok.injEq] at h2c
    have hrats2 : s2.ratings = s.ratings ++ [⟨s.nextId, d, u, r2, c2⟩] := by
      rw [← h2c]
      exact (update_dungeon_rating_ratings _ d).1
    have hc1 : (pairRatings s2 d u).length = 1 := by
      unfold pairRatings at hpair ⊢
      rw [hrats2, List.filter_append, hpair]
      simp
    have hlen : (dungeonRatings s2 d).length = (dungeonRatings s1 d).length := by
      unfold dungeonRatings
      rw [hrats2, hrat1, List.filter_append, List.filter_append]
      simp
    refine ⟨hc1, total_after_two s s1 s2 d u r1 r2 c1 c2 h1 h2 hlen, ?_⟩
    rw [hcall2, rate_dungeon_eval_nil s d u r2 c2 hr2 hpair]
    cases hdg : get_dungeon_by_id s d with
    | none =>
      have hW1n : get_dungeon_by_id { s with ratings := s.ratings ++ [⟨s.nextId, d, u, r1, c1⟩], nextId := s.nextId + 1 } d = none := hdg
      have hs1W : s1 = { s with ratings := s.ratings ++ [⟨s.nextId, d, u, r1, c1⟩], nextId := s.nextId + 1 } := by
        rw [← h1c, update_dungeon_rating_eval_none _ d hW1n]
      rw [hs1W]
    | some dg0 =>
      have hmemW1 : (⟨s.nextId, d, u, r1, c1⟩ : RatingRow) ∈ dungeonRatings { s with ratings := s.ratings ++ [⟨s.nextId, d, u, r1, c1⟩], nextId := s.nextId + 1 } d := by
        unfold dungeonRatings
        rw [List.mem_filter]
        exact ⟨by simp, by simp⟩
      have hneW1 : (dungeonRatings { s with ratings := s.ratings ++ [⟨s.nextId, d, u, r1, c1⟩], nextId := s.nextId + 1 } d).isEmpty = false := by
        rw [List.isEmpty_eq_false]
        exact List.ne_nil_of_mem hmemW1
      have hgetW1 : get_dungeon_by_id { s with ratings := s.ratings ++ [⟨s.nextId, d, u, r1, c1⟩], nextId := s.nextId + 1 } d = some dg0 := hdg
      have hs1eq := update_dungeon_rating_eval _ d dg0 hneW1 hgetW1
      rw [h1c] at hs1eq
      rw [hs1eq]
      have hmem2 : (⟨s.nextId, d, u, r2, c2⟩ : RatingRow) ∈ List.filter (fun x => x.dungeon_id == d) (s.ratings ++ [(⟨s.nextId, d, u, r2, c2⟩ : RatingRow)]) := by
        rw [List.mem_filter]
        exact ⟨by simp, by simp⟩
      have hneR2 : (List.filter (fun x => x.dungeon_id == d) (s.ratings ++ [(⟨s.nextId, d, u, r2, c2⟩ : RatingRow)])).isEmpty = false := by
        rw [List.isEmpty_eq_false]
        exact List.ne_nil_of_mem hmem2
      exact congrArg Except.ok (update_dungeon_rating_after_agg s.dungeons (s.ratings ++ [⟨s.nextId, d, u, r2, c2⟩]) (s.nextId + 1) d _ _ hneR2)
  | cons e rest =>
    have hein : e ∈ pairRatings s d u := by
      rw [hpair]
      exact List.mem_cons_self e rest
    have hmq := List.mem_filter.mp hein
    have hedu : e.dungeon_id = d ∧ e.user_id = u := by
      have hq := hmq.2
      simp only [Bool.and_eq_true, beq_iff_eq] at hq
      exact hq
    have hrest : rest = [] := by
      have hle : (e :: rest).length ≤ 1 := by
        rw [← hpair]
        exact huniq
      simp only [List.length_cons] at hle
      have : rest.length = 0 := by omega
      exact List.length_eq_zero.mp this
    subst hrest
    have h1c := h1
    rw [rate_dungeon_eval_cons s d u r1 c1 e [] hr1 hpair] at h1c
    simp only [Except.ok.injEq] at h1c
    have hrat1 : s1.ratings = updateById RatingRow.id s.ratings e.id (fun x => { x with rating := r1, comment := c1 }) := by
      rw [← h1c]
      exact (update_dungeon_rating_ratings _ d).1
    have hpairq : pairRatings s1 d u = [⟨e.id, e.dungeon_id, e.user_id, r1, c1⟩] := by
      unfold pairRatings at hpair ⊢
      rw [hrat1, filter_updateById_pred RatingRow.id s.ratings e.id (fun x => { x with rating := r1, comment := c1 }) (fun x => x.dungeon_id == d && x.user_id == u) (fun x => rfl), hpair]
      simp [updateById]
    have hcall2 : rate_dungeon s1 d u r2 c2 =
        .ok (update_dungeon_rating { s1 with ratings := (updateById RatingRow.id s.ratings e.id (fun x => { x with rating := r2, comment := c2 })) } d) := by
      have he2 : rate_dungeon s1 d u r2 c2 =
          .ok (update_dungeon_rating { s1 with ratings := (updateById RatingRow.id s1.ratings e.id (fun x => { x with rating := r2, comment := c2 })) } d) :=
        rate_dungeon_eval_cons s1 d u r2 c2 ⟨e.id, e.dungeon_id, e.user_id, r1, c1⟩ [] hr2 hpairq
      have hcomp : updateById RatingRow.id s1.ratings e.id (fun x => { x with rating := r2, comment := c2 }) =
          updateById RatingRow.id s.ratings e.id (fun x => { x with rating := r2, comment := c2 }) := by
        rw [hrat1, updateById_updateById RatingRow.id s.ratings e.id (fun x => { x with rating := r1, comment := c1 }) _ (fun x => rfl)]
      rw [hcomp] at he2
      exact he2
    have h2c := h2
    rw [hcall2] at h2c
    simp only [Except.ok.injEq] at h2c
    have hrats2 : s2.ratings = updateById RatingRow.id s.ratings e.id (fun x => { x with rating := r2, comment := c2 }) := by
      rw [← h2c]
      exact (update_dungeon_rating_ratings _ d).1
    have hc1 : (pairRatings s2 d u).length = 1 := by
      unfold pairRatings at hpair ⊢
      rw [hrats2, filter_updateById_pred RatingRow.id s.ratings e.id (fun x => { x with rating := r2, comment := c2 }) (fun x => x.dungeon_id == d && x.user_id == u) (fun x => rfl), hpair]
      simp
    have hlen : (dungeonRatings s2 d).length = (dungeonRatings s1 d).length := by
      unfold dungeonRatings
      rw [hrats2, hrat1,
          filter_updateById_pred RatingRow.id s.ratings e.id (fun x => { x with rating := r2, comment := c2 }) (fun x => x.dungeon_id == d) (fun x => rfl),
          filter_updateById_pred RatingRow.id s.ratings e.id (fun x => { x with rating := r1, comment := c1 }) (fun x => x.dungeon_id == d) (fun x => rfl)]
      simp
    refine ⟨hc1, total_after_two s s1 s2 d u r1 r2 c1 c2 h1 h2 hlen, ?_⟩
    rw [hcall2, rate_dungeon_eval_cons s d u r2 c2 e [] hr2 hpair]
    cases hdg : get_dungeon_by_id s d with
    | none =>
      have hW1n : get_dungeon_by_id { s with ratings := (updateById RatingRow.id s.ratings e.id (fun x => { x with rating := r1, comment := c1 })) } d = none := hdg
      have hs1W : s1 = { s with ratings := (updateById RatingRow.id s.ratings e.id (fun x => { x with rating := r1, comment := c1 })) } := by
        rw [← h1c, update_dungeon_rating_eval_none _ d hW1n]
      rw [hs1W]
    | some dg0 =>
      have hmemW1 : (⟨e.id, e.dungeon_id, e.user_id, r1, c1⟩ : RatingRow) ∈ dungeonRatings { s with ratings := (updateById RatingRow.id s.ratings e.id (fun x => { x with rating := r1, comment := c1 })) } d := by
        unfold dungeonRatings
        rw [List.mem_filter]
        constructor
        · exact List.mem_map.mpr ⟨e, hmq.1, by simp⟩
        · simp [hedu.1]
      have hneW1 : (dungeonRatings { s with ratings := (updateById RatingRow.id s.ratings e.id (fun x => { x with rating := r1, comment := c1 })) } d).isEmpty = false := by
        rw [List.isEmpty_eq_false]
        exact List.ne_nil_of_mem hmemW1
      have hgetW1 : get_dungeon_by_id { s with ratings := (updateById RatingRow.id s.ratings e.id (fun x => { x with rating := r1, comment := c1 })) } d = some dg0 := hdg
      have hs1eq := update_dungeon_rating_eval _ d dg0 hneW1 hgetW1
      rw [h1c] at hs1eq
      rw [hs1eq]
      have hmem2 : (⟨e.id, e.dungeon_id, e.user_id, r2, c2⟩ : RatingRow) ∈ (updateById RatingRow.id s.ratings e.id (fun x => { x with rating := r2, comment := c2 })).filter (fun x => x.dungeon_id == d) := by
        rw [List.mem_filter]
        constructor
        · exact List.mem_map.mpr ⟨e, hmq.1, by simp⟩
        · simp [hedu.1]
      have hneR2 : ((updateById RatingRow.id s.ratings e.id (fun x => { x with rating := r2, comment := c2 })).filter (fun x => x.dungeon_id == d)).isEmpty = false := by
        rw [List.isEmpty_eq_false]
        exact List.ne_nil_of_mem hmem2
      exact congrArg Except.ok (update_dungeon_rating_after_agg s.dungeons (updateById RatingRow.id s.ratings e.id (fun x => { x with rating := r2, comment := c2 })) s.nextId d _ _ hneR2)
/-- The store of `exDungeonStore` after user 2 rates dungeon 1 with 5. -/
def exIdemMid : DungeonStore := ⟨[⟨1, 9, 5, 1⟩], [⟨0, 1, 2, 5, none⟩], 1⟩

/-- Witness for C4: rating dungeon 1 as 5 then re-rating it as 3 leaves
one row, an unchanged count, and the same state as rating 3 directly. -/
theorem rate_dungeon_idempotent_witness :
    (∀ x ∈ exDungeonStore.ratings, x.id < exDungeonStore.nextId) ∧
    (pairRatings exDungeonStore 1 2).length ≤ 1 ∧
    rate_dungeon exDungeonStore 1 2 5 none = .ok exIdemMid ∧
    rate_dungeon exIdemMid 1 2 3 none = .ok exDungeonStorePost ∧
    ((pairRatings exDungeonStorePost 1 2).length = 1 ∧
     (get_dungeon_by_id exDungeonStorePost 1).map (fun dg => dg.total_ratings) =
       (get_dungeon_by_id exIdemMid 1).map (fun dg => dg.total_ratings) ∧
     rate_dungeon exIdemMid 1 2 3 none = rate_dungeon exDungeonStore 1 2 3 none) := by
  have hA : rate_dungeon exDungeonStore 1 2 5 none = .ok exIdemMid := by
    norm_num [rate_dungeon, exDungeonStore, exIdemMid, pairRatings, update_dungeon_rating, dungeonRatings, get_dungeon_by_id, updateById, round2, roundHalfEven]
  have hB : rate_dungeon exIdemMid 1 2 3 none = .ok exDungeonStorePost := by
    norm_num [rate_dungeon, exIdemMid, exDungeonStorePost, pairRatings, update_dungeon_rating, dungeonRatings, get_dungeon_by_id, updateById, round2, roundHalfEven]
  exact ⟨by decide, by decide, hA, hB,
    rate_dungeon_idempotent exDungeonStore 1 2 5 3 none none exIdemMid exDungeonStorePost (by decide) (by decide) hA hB⟩
/-- Witness for C9: rating 0 is rejected with the validation message. -/
theorem rate_dungeon_range_spec_witness :
    ((0 : ℤ) < 1 ∨ 5 < (0 : ℤ)) ∧
    rate_dungeon exDungeonStore 1 2 0 none = .error "Rating must be between 1 and 5" :=
  ⟨by decide, rate_dungeon_range_spec.2.1 exDungeonStore 1 2 0 none (by decide)⟩
end DungeonBuilder
